import Mathlib

/-!
Verification development for the stock-analyzer repository.

The embedding below models, in Lean, the core pipeline of the repository:

* the per-row 200-week simple-moving-average computation of
  src/main.py, fetch_200_wk_simple_moving_average_SMA (lines 122-125);
* the expiring blob cache of src/cloud_storage.py (CloudStorage);
* the constituent-table extraction of src/utils.py,
  load_or_download_sp500_tickers;
* the dataframe-level operations (reset_index, merge, drop, rename,
  column selection, sort_values, stack) used by src/main.py in
  load_or_download_data, fetch_stock_data and merge_stock_data.

Rational numbers stand in for the floating-point values of the source;
rounding is modelled as exact round-half-to-even on rationals, mirroring
numpy rounding.  Timestamps are rationals measured in days, so that
timedelta(days = d) is the rational d.  Fallible operations (unpickling a
blob of the wrong shape, indexing a missing dictionary key) are modelled
with Except.
-/

set_option maxHeartbeats 1000000

/-- Round half to even of a rational to an integer, mirroring the rounding
used by numpy/pandas round. -/
def rhe (q : Rat) : Int :=
  let f : Int := Int.floor q
  let r : Rat := q - (f : Rat)
  if r < 1/2 then f
  else if (1 : Rat)/2 < r then f + 1
  else if f % 2 = 0 then f else f + 1

/-- Rounding to 2 decimal places, the model of pandas round(2). -/
def round2 (q : Rat) : Rat := ((rhe (q * 100) : Int) : Rat) / 100

/-- Mean of a list of rationals, the model of a pandas row-wise mean over a
fully populated row: None on an empty row (pandas would yield NaN). -/
def rowMean (r : List Rat) : Option Rat :=
  if r.length = 0 then none else some (r.sum / (r.length : Rat))

/-- Model of src/main.py lines 122-123 for one symbol row of the weekly
grid: the row of data, transposed per symbol, is rounded to 2 decimals
(data close T round(2)) and the 200wk_sma column is the row-wise mean
rounded to 2 decimals (mean(axis=1).round(2)). -/
def sma200wkOfRow (ws : List Rat) : Option Rat :=
  (rowMean (ws.map round2)).map round2

/-- Model of src/main.py lines 124-125 for one symbol row: the percent
deviation column is ((closing_prices.iloc[:, -2] - sma) / sma) * 100,
rounded to 2 decimals.  When iloc[:, -2] is evaluated, the 200wk_sma
column has already been appended as the last column, so column -2 of the
dataframe is the LAST column of the weekly grid itself, i.e. the latest
weekly close.  Division by zero (a zero 200wk_sma divisor) is the error
outcome none; pandas has no guard at this point. -/
def pctDeviationOfRow (ws : List Rat) : Option Rat :=
  match sma200wkOfRow ws, (ws.map round2).getLast? with
  | some m, some lastClose =>
      if m = 0 then none else some (round2 ((lastClose - m) / m * 100))
  | _, _ => none

/-- Value stored in a dataframe cell: missing (NaN), a string, or a
number. -/
inductive Val
  | na : Val
  | str : String → Val
  | num : Rat → Val
deriving DecidableEq

/-- Total boolean comparison on cell values, used to model the ordering of
sort_values: numbers compare by the rational order, strings by the
lexicographic string order, and distinct kinds compare by kind. -/
def Val.vle : Val → Val → Bool
  | .na, _ => true
  | .str _, .na => false
  | .str a, .str b => decide (a ≤ b)
  | .str _, .num _ => false
  | .num _, .na => false
  | .num a, .num b => decide (a ≤ b)
  | .num _, .str _ => true

/-- Position of a column label in a column list (the length of the list
when the label is absent), the model of positional column lookup. -/
def colIdx : List String → String → Nat
  | [], _ => 0
  | c0 :: cs, c => if c0 = c then 0 else colIdx cs c + 1

/-- Dataframe: an index column (with an optional name) plus named data
columns; each row is a list of cell values aligned with cols. -/
structure DataFrame where
  idxName : Option String
  idx : List Val
  cols : List String
  rows : List (List Val)
deriving DecidableEq

/-- Fresh range index 0, 1, 2, ... -/
def rangeVals (n : Nat) : List Val := (List.range n).map (fun i : Nat => Val.num (i : Rat))

/-- Values of one named column, top to bottom. -/
def DataFrame.colVals (df : DataFrame) (c : String) : List Val :=
  df.rows.map (fun r => r.getD (colIdx df.cols c) Val.na)

/-- Cons each index value onto its row (helper for reset_index). -/
def zipCons : List Val → List (List Val) → List (List Val)
  | i :: is, r :: rs => (i :: r) :: zipCons is rs
  | _, _ => []

/-- Model of pandas reset_index(): the index becomes the first data column
(named "index" when the index is unnamed) and the new index is a fresh
range. -/
def DataFrame.resetIndex (df : DataFrame) : DataFrame :=
  { idxName := none
    idx := rangeVals df.rows.length
    cols := (df.idxName.getD "index") :: df.cols
    rows := zipCons df.idx df.rows }

/-- Model of pandas column selection df[[c1, ..., ck]]: keeps the index and
reads each requested column positionally from every row. -/
def DataFrame.selectCols (df : DataFrame) (cs : List String) : DataFrame :=
  { idxName := df.idxName
    idx := df.idx
    cols := cs
    rows := df.rows.map (fun r => cs.map (fun c => r.getD (colIdx df.cols c) Val.na)) }

/-- Model of pandas drop(columns = cs): removes the named columns and the
corresponding cell of every row. -/
def DataFrame.dropCols (df : DataFrame) (cs : List String) : DataFrame :=
  { idxName := df.idxName
    idx := df.idx
    cols := df.cols.filter (fun c => !(cs.contains c))
    rows := df.rows.map (fun r =>
      ((df.cols.zip r).filter (fun p => !(cs.contains p.1))).map (fun p => p.2)) }

/-- Model of pandas rename(columns = m). -/
def DataFrame.renameCols (df : DataFrame) (m : List (String × String)) : DataFrame :=
  { df with cols := df.cols.map (fun c =>
      match m.find? (fun p => p.1 == c) with
      | some p => p.2
      | none => c) }

/-- Rows of an inner merge on one key column: for each left row, in order,
all right rows with an equal key, with the right key entry removed. -/
def innerRows (li ri : Nat) (rrows : List (List Val)) : List (List Val) → List (List Val)
  | [] => []
  | lr :: ls =>
      ((rrows.filter (fun rr => rr.getD ri Val.na == lr.getD li Val.na)).map
        (fun rr => lr ++ rr.eraseIdx ri)) ++ innerRows li ri rrows ls

/-- Model of pd.merge(left, right, on = key) with its default inner-join
semantics: result columns are the left columns followed by the right
columns minus the key; the result gets a fresh range index. -/
def mergeInner (l r : DataFrame) (key : String) : DataFrame :=
  let rows := innerRows (colIdx l.cols key) (colIdx r.cols key) r.rows l.rows
  { idxName := none
    idx := rangeVals rows.length
    cols := l.cols ++ (r.cols.eraseIdx (colIdx r.cols key))
    rows := rows }

/-- Rows of a left merge: left rows without a match are kept, padded with
missing values. -/
def leftRows (li ri pad : Nat) (rrows : List (List Val)) : List (List Val) → List (List Val)
  | [] => []
  | lr :: ls =>
      (let ms := rrows.filter (fun rr => rr.getD ri Val.na == lr.getD li Val.na)
       if ms.isEmpty then [lr ++ List.replicate pad Val.na]
       else ms.map (fun rr => lr ++ rr.eraseIdx ri)) ++ leftRows li ri pad rrows ls

/-- Model of pd.merge(left, right, on = key, how = left). -/
def mergeLeft (l r : DataFrame) (key : String) : DataFrame :=
  let rows := leftRows (colIdx l.cols key) (colIdx r.cols key) (r.cols.length - 1) r.rows l.rows
  { idxName := none
    idx := rangeVals rows.length
    cols := l.cols ++ (r.cols.eraseIdx (colIdx r.cols key))
    rows := rows }

/-- Lexicographic comparison of extracted sort keys. -/
def lexLe : List Val → List Val → Bool
  | [], _ => true
  | _ :: _, [] => true
  | a :: xs, b :: ys => if a = b then lexLe xs ys else Val.vle a b

/-- Insertion into a sorted list (helper of the comparison sort). -/
def insertBy {α : Type} (le : α → α → Bool) (x : α) : List α → List α
  | [] => [x]
  | y :: ys => if le x y then x :: y :: ys else y :: insertBy le x ys

/-- Comparison sort, the model of the ordering produced by sort_values. -/
def sortBy {α : Type} (le : α → α → Bool) : List α → List α
  | [] => []
  | x :: xs => insertBy le x (sortBy le xs)

/-- Model of pandas sort_values(by = keys, ascending): rows and index are
reordered together by lexicographic comparison of the key columns. -/
def DataFrame.sortValues (df : DataFrame) (keys : List String) (asc : Bool) : DataFrame :=
  let kidx := keys.map (colIdx df.cols)
  let cmp : Val × List Val → Val × List Val → Bool := fun a b =>
    let ka := kidx.map (fun i => a.2.getD i Val.na)
    let kb := kidx.map (fun i => b.2.getD i Val.na)
    if asc then lexLe ka kb else lexLe kb ka
  let sorted := sortBy cmp (df.idx.zip df.rows)
  { idxName := df.idxName
    idx := sorted.map (fun p => p.1)
    cols := df.cols
    rows := sorted.map (fun p => p.2) }

/-- Long-form rows of stack(): for each index value (date), the non-missing
entries of that row, one output row [date, column label, value] per entry,
in column order.  Missing values are dropped, as pandas stack does. -/
def stackRows (tickers : List String) : List Val → List (List Val) → List (List Val)
  | d :: ds, r :: rs =>
      ((tickers.zip r).filterMap (fun p =>
        if p.2 = Val.na then none else some [d, Val.str p.1, p.2])) ++ stackRows tickers ds rs
  | _, _ => []

/-- Model of src/main.py lines 72-74: data Close stack() reset_index() with
the columns renamed to Date, Ticker, Close. -/
def stackClose (wide : DataFrame) : DataFrame :=
  let rows := stackRows wide.cols wide.idx wide.rows
  { idxName := none
    idx := rangeVals rows.length
    cols := ["Date", "Ticker", "Close"]
    rows := rows }

/-- Payload pickled into the blob cache: either a plain dataframe, or a
market-data download of which only the Close field (a wide frame indexed by
date with one column per ticker) is consumed downstream. -/
inductive Payload
  | df : DataFrame → Payload
  | yf : DataFrame → Payload
deriving DecidableEq

/-- Physical blob in the bucket: a pickled payload, a pickled metadata
dictionary (carrying its date field), or the CSV text of a table. -/
inductive Blob
  | pickled : Payload → Blob
  | meta : Rat → Blob
  | csvText : DataFrame → Blob
deriving DecidableEq

/-- Bucket contents: an association list from blob path to blob, most
recent write first. -/
abbrev CacheStore := List (String × Blob)

/-- Blob stored at a path, if any. -/
def lookupStore : CacheStore → String → Option Blob
  | [], _ => none
  | (k0, b) :: rest, k => if k0 = k then some b else lookupStore rest k

/-- Model of CloudStorage.save_to_cache (src/cloud_storage.py lines 50-67):
writes the data blob at file_path, then the metadata blob holding the
current timestamp at file_path ++ "_metadata". -/
def save_to_cache (st : CacheStore) (data : Payload) (file_path : String) (now : Rat) :
    CacheStore :=
  (file_path ++ "_metadata", Blob.meta now) :: (file_path, Blob.pickled data) :: st

/-- Model of CloudStorage.load_from_cache (src/cloud_storage.py lines
69-97): None when the data blob or the metadata blob does not exist, None
when now minus the recorded date exceeds max_age_days, otherwise the
unpickled payload.  Unpickling a blob of the wrong shape, or reading the
date field of a non-metadata blob, is the error outcome. -/
def load_from_cache (st : CacheStore) (file_path : String) (max_age_days : Int) (now : Rat) :
    Except Unit (Option Payload) :=
  match lookupStore st file_path, lookupStore st (file_path ++ "_metadata") with
  | none, _ => .ok none
  | some _, none => .ok none
  | some b, some mb =>
      match mb with
      | .meta cache_date =>
          if (max_age_days : Rat) < now - cache_date then .ok none
          else match b with
               | .pickled p => .ok (some p)
               | _ => .error ()
      | _ => .error ()

/-- Stateful view of load_from_cache: the source performs reads only, so
the store component of the result is the input store. -/
def load_from_cacheRun (st : CacheStore) (file_path : String) (max_age_days : Int) (now : Rat) :
    Except Unit (Option Payload) × CacheStore :=
  (load_from_cache st file_path max_age_days now, st)

/-- Model of CloudStorage.save_csv_to_cache (src/cloud_storage.py lines
99-110): writes CSV text of the dataframe at file_path; no metadata blob
is written. -/
def save_csv_to_cache (st : CacheStore) (df : DataFrame) (file_path : String) : CacheStore :=
  (file_path, Blob.csvText df) :: st

/-- Model of CloudStorage.load_csv_from_cache (src/cloud_storage.py lines
111-126): None when the blob does not exist, otherwise the parsed table.
No metadata blob and no expiry condition is consulted.  Reading a non-CSV
blob as CSV is the error outcome. -/
def load_csv_from_cache (st : CacheStore) (file_path : String) :
    Except Unit (Option DataFrame) :=
  match lookupStore st file_path with
  | none => .ok none
  | some (Blob.csvText t) => .ok (some t)
  | some _ => .error ()

/-- Model of src/utils.py lines 55-66: from the constituents table rows
(one list of td-cell texts per tr element, header row first), every data
row with at least 4 cells contributes its first four cells, stripped, as
Ticker/Security/Sector/Industry; shorter rows are skipped, and the output
order follows the document order. -/
def sp500TableRecords (trs : List (List String)) : List (List Val) :=
  (trs.drop 1).filterMap (fun cs =>
    match cs with
    | c0 :: c1 :: c2 :: c3 :: _ =>
        some [Val.str c0.trim, Val.str c1.trim, Val.str c2.trim, Val.str c3.trim]
    | _ => none)

/-- Result dataframe pd.DataFrame(data) of load_or_download_sp500_tickers. -/
def sp500DataFrame (trs : List (List String)) : DataFrame :=
  let rows := sp500TableRecords trs
  { idxName := none
    idx := rangeVals rows.length
    cols := ["Ticker", "Security", "Sector", "Industry"]
    rows := rows }

/-- Model of src/utils.py load_or_download_sp500_tickers (lines 24-73):
the cached payload under the fixed key when fresh, otherwise the freshly
parsed constituent table, written through to the cache.  The scraped
document is the trs argument. -/
def load_or_download_sp500_tickers (trs : List (List String)) (st : CacheStore) (now : Rat) :
    Except Unit (Payload × CacheStore) :=
  match load_from_cache st "sp500_cache.pkl" 1 now with
  | .error e => .error e
  | .ok (some cached) => .ok (cached, st)
  | .ok none =>
      let result_df := sp500DataFrame trs
      .ok (Payload.df result_df, save_to_cache st (Payload.df result_df) "sp500_cache.pkl" now)

/-- Model of src/main.py load_or_download_data (lines 16-51): the cached
payload under the fixed key data_cache.pkl when fresh, otherwise a fresh
download (the oracle dl applied to the ticker list and the
previous_business_day argument), written through to the cache.  The cache
key is a fixed string that does not mention previous_business_day. -/
def load_or_download_data (dl : List Val → Rat → Payload) (sp500_tickers : List Val)
    (st : CacheStore) (now : Rat) (previous_business_day : Rat) :
    Except Unit (Payload × CacheStore) :=
  match load_from_cache st "data_cache.pkl" 1 now with
  | .error e => .error e
  | .ok (some cached) => .ok (cached, st)
  | .ok none =>
      let data := dl sp500_tickers previous_business_day
      .ok (data, save_to_cache st data "data_cache.pkl" now)

/-- Model of src/main.py fetch_stock_data (lines 53-86): load the
constituent reference table (cache-or-scrape) at call time, fix the
previous business day three days back, load or download the price payload,
stack the Close field into long form, left-join with the reference table
on Ticker, and sort by Ticker then Date.  Payloads of the wrong dynamic
shape are the error outcome. -/
def fetch_stock_data (trs : List (List String)) (dl : List Val → Rat → Payload)
    (st : CacheStore) (now : Rat) : Except Unit (DataFrame × CacheStore) :=
  match load_or_download_sp500_tickers trs st now with
  | .error e => .error e
  | .ok (Payload.yf _, _) => .error ()
  | .ok (Payload.df sp500_df, st1) =>
      let previous_business_day : Rat := ((Int.floor now : Int) : Rat) - 3
      match load_or_download_data dl (sp500_df.colVals "Ticker") st1 now previous_business_day with
      | .error e => .error e
      | .ok (Payload.df _, _) => .error ()
      | .ok (Payload.yf closeWide, st2) =>
          let closing_prices := stackClose closeWide
          let result_df := mergeLeft closing_prices sp500_df "Ticker"
          .ok (result_df.sortValues ["Ticker", "Date"] true, st2)

/-- Model of src/main.py merge_stock_data (lines 135-169): reset both
indices, inner-merge the closing prices with the Ticker, 200wk_sma and
percent-deviation columns of the moving averages, drop the raw index and
Date columns, rename to the display labels, reorder to the fixed output
column order, sort ascending by percent deviation, write through to the
cache, and return the result re-sorted. -/
def merge_stock_data (closing_prices moving_averages : DataFrame)
    (st : CacheStore) (now : Rat) : DataFrame × CacheStore :=
  let cp := closing_prices.resetIndex
  let ma := moving_averages.resetIndex
  let merged1 := mergeInner cp (ma.selectCols ["Ticker", "200wk_sma", "% Deviation"]) "Ticker"
  let merged2 := merged1.dropCols ["index", "Date"]
  let merged3 := merged2.renameCols [("200wk_sma", "200 Week SMA"), ("Security", "Company")]
  let merged4 := merged3.selectCols
    ["% Deviation", "Ticker", "Company", "200 Week SMA", "Close", "Sector", "Industry"]
  let merged5 := merged4.sortValues ["% Deviation"] true
  let st2 := save_to_cache st (Payload.df merged5) "final_merged_data_cache.pkl" now
  (merged5.sortValues ["% Deviation"] true, st2)

theorem rhe_eval_low (q : Rat) (f : Int) (r : Rat) (hq : q = (f : Rat) + r)
    (h0 : 0 ≤ r) (h1 : r < 1/2) : rhe q = f := by
  have hf : Int.floor q = f := by
    rw [hq, add_comm, Int.floor_add_int, Int.floor_eq_zero_iff.mpr, zero_add]
    exact Set.mem_Ico.mpr ⟨h0, by linarith⟩
  show (if q - ((Int.floor q : Int) : Rat) < 1/2 then Int.floor q
        else if (1 : Rat)/2 < q - ((Int.floor q : Int) : Rat) then Int.floor q + 1
        else if Int.floor q % 2 = 0 then Int.floor q else Int.floor q + 1) = f
  rw [hf]
  have hr : q - (f : Rat) = r := by rw [hq]; ring
  rw [hr, if_pos h1]

theorem round2_eval_low (q : Rat) (f : Int) (r : Rat) (hq : q * 100 = (f : Rat) + r)
    (h0 : 0 ≤ r) (h1 : r < 1/2) : round2 q = (f : Rat) / 100 := by
  unfold round2
  rw [rhe_eval_low (q * 100) f r hq h0 h1]

theorem round2_ten : round2 (10 : Rat) = 10 := by
  rw [round2_eval_low (10 : Rat) 1000 0 (by norm_num) (by norm_num) (by norm_num)]
  norm_num

theorem round2_twenty : round2 (20 : Rat) = 20 := by
  rw [round2_eval_low (20 : Rat) 2000 0 (by norm_num) (by norm_num) (by norm_num)]
  norm_num

theorem round2_thirty : round2 (30 : Rat) = 30 := by
  rw [round2_eval_low (30 : Rat) 3000 0 (by norm_num) (by norm_num) (by norm_num)]
  norm_num

theorem round2_fifty : round2 (50 : Rat) = 50 := by
  rw [round2_eval_low (50 : Rat) 5000 0 (by norm_num) (by norm_num) (by norm_num)]
  norm_num

theorem round2_zero : round2 (0 : Rat) = 0 := by
  rw [round2_eval_low (0 : Rat) 0 0 (by norm_num) (by norm_num) (by norm_num)]
  norm_num

theorem round2_centi : round2 ((1 : Rat)/100) = 1/100 := by
  rw [round2_eval_low ((1 : Rat)/100) 1 0 (by norm_num) (by norm_num) (by norm_num)]
  norm_num

theorem map_round2_grid : [(10 : Rat), 20, 30].map round2 = [10, 20, 30] := by
  simp [List.map, round2_ten, round2_twenty, round2_thirty]

theorem sma_grid_102030 : sma200wkOfRow [10, 20, 30] = some 20 := by
  unfold sma200wkOfRow
  rw [map_round2_grid]
  unfold rowMean
  norm_num [List.sum_cons, List.sum_nil]
  exact round2_twenty

theorem pct_grid_102030 : pctDeviationOfRow [10, 20, 30] = some 50 := by
  unfold pctDeviationOfRow
  rw [sma_grid_102030, map_round2_grid]
  show (if (20 : Rat) = 0 then none else some (round2 ((30 - 20) / 20 * 100))) = some 50
  rw [if_neg (by norm_num)]
  rw [show ((30 : Rat) - 20) / 20 * 100 = 50 by norm_num, round2_fifty]

theorem round2_third : round2 ((1 : Rat)/300) = 0 := by
  rw [round2_eval_low ((1 : Rat)/300) 0 (1/3) (by norm_num) (by norm_num) (by norm_num)]
  norm_num

/-- C1 counterexample: on the weekly grid row [10, 20, 30] the moving-average
fetcher does NOT produce a 0.0 percent deviation.  At the moment iloc[:, -2]
is evaluated the 200wk_sma column has already been appended, so column -2 is
the last weekly close 30, not the middle grid value 20. -/
theorem pctDeviation_grid_102030_ne_zero : pctDeviationOfRow [10, 20, 30] ≠ some 0 := by
  rw [pct_grid_102030]
  intro h
  have : (50 : Rat) = 0 := Option.some.inj h
  norm_num at this

/-- C1 (amended): for a symbol whose weekly grid row is [10, 20, 30], the
moving-average fetcher computes moving_average_200wk = 20.0 as the rounded
row-wise mean, and computes percent_deviation from the dataframe column at
index -2 — which, after the mean column is appended, is the LAST grid
column (value 30) — against that mean, yielding 50.0 percent. -/
theorem sma_fetch_grid_102030_amended :
    sma200wkOfRow [10, 20, 30] = some 20 ∧ pctDeviationOfRow [10, 20, 30] = some 50 :=
  ⟨sma_grid_102030, pct_grid_102030⟩

theorem map_round2_centi_row :
    [(1 : Rat)/100, 0, 0].map round2 = [1/100, 0, 0] := by
  simp only [List.map]
  rw [round2_centi, round2_zero]

theorem rowMean_centi_row : rowMean [(1 : Rat)/100, 0, 0] = some (1/300) := by
  unfold rowMean
  norm_num [List.sum_cons, List.sum_nil]

theorem sma_centi_row : sma200wkOfRow [(1 : Rat)/100, 0, 0] = some 0 := by
  unfold sma200wkOfRow
  rw [map_round2_centi_row, rowMean_centi_row]
  show some (round2 ((1 : Rat)/300)) = some 0
  rw [round2_third]

theorem getLast_centi_row : ([(1 : Rat)/100, 0, 0].map round2).getLast? = some 0 := by
  rw [map_round2_centi_row]
  rfl

/-- C10 counterexample: a grid row whose row-wise mean is nonzero on which
the percent-deviation computation still divides by zero.  For the row
[0.01, 0, 0] the mean is 1/300, which is nonzero, but the 200wk_sma divisor
is that mean rounded to 2 decimals, i.e. 0, so the division has a zero
divisor: a nonzero mean is not sufficient for the division to be safe. -/
theorem pctDeviation_nonzero_mean_div_zero :
    rowMean ([(1 : Rat)/100, 0, 0].map round2) = some (1/300) ∧
      ((1 : Rat)/300 ≠ 0) ∧ pctDeviationOfRow [(1 : Rat)/100, 0, 0] = none := by
  refine ⟨?_, by norm_num, ?_⟩
  · rw [map_round2_centi_row, rowMean_centi_row]
  · unfold pctDeviationOfRow
    rw [sma_centi_row, getLast_centi_row]
    show (if (0 : Rat) = 0 then (none : Option Rat)
          else some (round2 ((0 - 0) / 0 * 100))) = none
    rw [if_pos rfl]

/-- C10 (amended): the percent-deviation computation of the moving-average
fetcher divides by the symbol's 200wk_sma value (the rounded row-wise mean)
with no zero guard; it is total exactly when that rounded mean is nonzero,
and when the rounded mean is zero the division error branch is reached. -/
theorem pctDeviation_total_iff_sma_ne_zero (ws : List Rat) (m : Rat)
    (h : sma200wkOfRow ws = some m) :
    (m ≠ 0 → (pctDeviationOfRow ws).isSome = true) ∧
      (m = 0 → pctDeviationOfRow ws = none) := by
  have hne : ws.map round2 ≠ [] := by
    intro he
    unfold sma200wkOfRow rowMean at h
    rw [he] at h
    simp at h
  obtain ⟨l, hl⟩ := Option.isSome_iff_exists.mp (List.getLast?_isSome.mpr hne)
  unfold pctDeviationOfRow
  rw [h, hl]
  constructor
  · intro hm
    show (if m = 0 then (none : Option Rat)
          else some (round2 ((l - m) / m * 100))).isSome = true
    rw [if_neg hm]
    rfl
  · intro hm
    show (if m = 0 then (none : Option Rat)
          else some (round2 ((l - m) / m * 100))) = none
    rw [if_pos hm]

/-- Witness for the amended C10 theorem at the concrete grid row
[10, 20, 30], whose 200wk_sma is 20. -/
theorem pctDeviation_total_iff_sma_ne_zero_witness :
    ((20 : Rat) ≠ 0 → (pctDeviationOfRow [10, 20, 30]).isSome = true) ∧
      ((20 : Rat) = 0 → pctDeviationOfRow [10, 20, 30] = none) :=
  pctDeviation_total_iff_sma_ne_zero [10, 20, 30] 20 sma_grid_102030

theorem append_metadata_ne (s : String) : ¬ (s ++ "_metadata" = s) := by
  intro h
  have h2 := congrArg String.length h
  rw [String.length_append] at h2
  have h3 : ("_metadata" : String).length = 9 := rfl
  rw [h3] at h2
  omega

theorem load_from_cache_hit (st : CacheStore) (k : String) (maxAge : Int) (now d0 : Rat)
    (p : Payload) (h1 : lookupStore st k = some (Blob.pickled p))
    (h2 : lookupStore st (k ++ "_metadata") = some (Blob.meta d0))
    (h3 : ¬ ((maxAge : Rat) < now - d0)) :
    load_from_cache st k maxAge now = .ok (some p) := by
  simp only [load_from_cache, h1, h2]
  rw [if_neg h3]

/-- C2: save_to_cache of payload P under key K followed immediately by
load_from_cache of K with any max_age_days at least 0 returns P. -/
theorem save_then_load_roundtrip (st : CacheStore) (p : Payload) (k : String)
    (now : Rat) (max_age_days : Int) (h : 0 ≤ max_age_days) :
    load_from_cache (save_to_cache st p k now) k max_age_days now = .ok (some p) := by
  have h1 : lookupStore (save_to_cache st p k now) k = some (Blob.pickled p) := by
    show (if k ++ "_metadata" = k then some (Blob.meta now)
          else lookupStore ((k, Blob.pickled p) :: st) k) = some (Blob.pickled p)
    rw [if_neg (append_metadata_ne k)]
    show (if k = k then some (Blob.pickled p) else lookupStore st k) = some (Blob.pickled p)
    rw [if_pos rfl]
  have h2 : lookupStore (save_to_cache st p k now) (k ++ "_metadata") =
      some (Blob.meta now) := by
    show (if k ++ "_metadata" = k ++ "_metadata" then some (Blob.meta now)
          else lookupStore ((k, Blob.pickled p) :: st) (k ++ "_metadata")) =
        some (Blob.meta now)
    rw [if_pos rfl]
  have h3 : ¬ ((max_age_days : Rat) < now - now) := by
    rw [sub_self]
    exact not_lt.mpr (by exact_mod_cast h)
  exact load_from_cache_hit _ k max_age_days now now p h1 h2 h3

/-- Witness for C2 at a concrete store, payload, key and age bound. -/
theorem save_then_load_roundtrip_witness :
    (0 : Int) ≤ 1 ∧
      load_from_cache (save_to_cache [] (Payload.df ⟨none, [], ["A"], []⟩) "k" 0) "k" 1 0 =
        .ok (some (Payload.df ⟨none, [], ["A"], []⟩)) :=
  ⟨by norm_num,
   save_then_load_roundtrip [] (Payload.df ⟨none, [], ["A"], []⟩) "k" 0 1 (by norm_num)⟩

/-- C5: load_from_cache misses (returns None) when the data blob does not
exist, when the metadata blob does not exist (a data blob without its
sibling metadata blob is a full miss), and when now minus the written
timestamp exceeds max_age_days; and the load performs no writes, leaving
the store unchanged. -/
theorem load_from_cache_miss_conditions (st : CacheStore) (k : String)
    (max_age_days : Int) (now : Rat) :
    (lookupStore st k = none → load_from_cache st k max_age_days now = .ok none) ∧
    (lookupStore st (k ++ "_metadata") = none →
      load_from_cache st k max_age_days now = .ok none) ∧
    (∀ b d, lookupStore st k = some b →
      lookupStore st (k ++ "_metadata") = some (Blob.meta d) →
      (max_age_days : Rat) < now - d →
      load_from_cache st k max_age_days now = .ok none) ∧
    (load_from_cacheRun st k max_age_days now).2 = st := by
  refine ⟨?_, ?_, ?_, rfl⟩
  · intro h
    unfold load_from_cache
    rw [h]
  · intro h
    unfold load_from_cache
    rw [h]
    cases lookupStore st k <;> rfl
  · intro b d hb hd hexp
    simp only [load_from_cache, hb, hd]
    rw [if_pos hexp]

/-- Witness for C5: the three miss conditions and the unchanged store, each
at a concrete store. -/
theorem load_from_cache_miss_conditions_witness :
    load_from_cache [] "k" 1 0 = .ok none ∧
    load_from_cache [("k", Blob.pickled (Payload.df ⟨none, [], [], []⟩))] "k" 1 0 = .ok none ∧
    load_from_cache [("k", Blob.pickled (Payload.df ⟨none, [], [], []⟩)),
      ("k_metadata", Blob.meta 0)] "k" 1 5 = .ok none ∧
    (load_from_cacheRun [("k", Blob.pickled (Payload.df ⟨none, [], [], []⟩)),
      ("k_metadata", Blob.meta 0)] "k" 1 5).2 =
      [("k", Blob.pickled (Payload.df ⟨none, [], [], []⟩)), ("k_metadata", Blob.meta 0)] :=
  ⟨(load_from_cache_miss_conditions [] "k" 1 0).1 rfl,
   (load_from_cache_miss_conditions _ "k" 1 0).2.1 rfl,
   (load_from_cache_miss_conditions _ "k" 1 5).2.2.1
     (Blob.pickled (Payload.df ⟨none, [], [], []⟩)) 0 rfl rfl (by norm_num),
   (load_from_cache_miss_conditions _ "k" 1 5).2.2.2⟩

/-- C7: when the fixed-key price cache hits, load_or_download_data returns
the cached payload unchanged, independent of the previous_business_day
argument (and of the ticker list and the download oracle): the cache key is
a fixed string not parameterized by the query. -/
theorem load_data_hit_ignores_as_of (st : CacheStore) (now : Rat) (d : Payload)
    (h : load_from_cache st "data_cache.pkl" 1 now = .ok (some d))
    (dl1 dl2 : List Val → Rat → Payload) (t1 t2 : List Val) (a1 a2 : Rat) :
    load_or_download_data dl1 t1 st now a1 = .ok (d, st) ∧
      load_or_download_data dl1 t1 st now a1 = load_or_download_data dl2 t2 st now a2 := by
  unfold load_or_download_data
  rw [h]
  exact ⟨rfl, rfl⟩

/-- Witness for C7 at a concrete hit state and two distinct as_of dates. -/
theorem load_data_hit_ignores_as_of_witness :
    load_or_download_data (fun _ _ => Payload.df ⟨none, [], [], []⟩) []
        [("data_cache.pkl", Blob.pickled (Payload.yf ⟨some "Date", [], [], []⟩)),
         ("data_cache.pkl_metadata", Blob.meta 0)] 0 100 =
      .ok (Payload.yf ⟨some "Date", [], [], []⟩,
        [("data_cache.pkl", Blob.pickled (Payload.yf ⟨some "Date", [], [], []⟩)),
         ("data_cache.pkl_metadata", Blob.meta 0)]) ∧
    load_or_download_data (fun _ _ => Payload.df ⟨none, [], [], []⟩) []
        [("data_cache.pkl", Blob.pickled (Payload.yf ⟨some "Date", [], [], []⟩)),
         ("data_cache.pkl_metadata", Blob.meta 0)] 0 100 =
      load_or_download_data (fun _ _ => Payload.df ⟨none, [], [], []⟩) []
        [("data_cache.pkl", Blob.pickled (Payload.yf ⟨some "Date", [], [], []⟩)),
         ("data_cache.pkl_metadata", Blob.meta 0)] 0 200 :=
  load_data_hit_ignores_as_of
    [("data_cache.pkl", Blob.pickled (Payload.yf ⟨some "Date", [], [], []⟩)),
     ("data_cache.pkl_metadata", Blob.meta 0)] 0 (Payload.yf ⟨some "Date", [], [], []⟩)
    (load_from_cache_hit
      [("data_cache.pkl", Blob.pickled (Payload.yf ⟨some "Date", [], [], []⟩)),
       ("data_cache.pkl_metadata", Blob.meta 0)] "data_cache.pkl" 1 0 0
      (Payload.yf ⟨some "Date", [], [], []⟩) rfl rfl (by norm_num))
    _ _ _ _ 100 200

/-- C8: load_csv_from_cache returns the stored table when the data blob
exists (in particular right after save_csv_to_cache) and None when it does
not; the check is existence-only: the result depends only on the blob at
the key itself — no metadata blob and no expiry or max-age condition is
consulted (the function takes no clock or age input at all). -/
theorem load_csv_semantics (st : CacheStore) (k : String) :
    (∀ t, lookupStore st k = some (Blob.csvText t) →
      load_csv_from_cache st k = .ok (some t)) ∧
    (lookupStore st k = none → load_csv_from_cache st k = .ok none) ∧
    (∀ t, load_csv_from_cache (save_csv_to_cache st t k) k = .ok (some t)) ∧
    (∀ st2 : CacheStore, lookupStore st2 k = lookupStore st k →
      load_csv_from_cache st2 k = load_csv_from_cache st k) := by
  refine ⟨?_, ?_, ?_, ?_⟩
  · intro t h
    unfold load_csv_from_cache
    rw [h]
  · intro h
    unfold load_csv_from_cache
    rw [h]
  · intro t
    have hl : lookupStore (save_csv_to_cache st t k) k = some (Blob.csvText t) := by
      show (if k = k then some (Blob.csvText t) else lookupStore st k) = some (Blob.csvText t)
      rw [if_pos rfl]
    unfold load_csv_from_cache
    rw [hl]
  · intro st2 h
    unfold load_csv_from_cache
    rw [h]

/-- Witness for C8: the four behaviours at concrete stores; the last
conjunct varies the metadata blob without changing the result. -/
theorem load_csv_semantics_witness :
    load_csv_from_cache [("k", Blob.csvText ⟨none, [], [], []⟩)] "k" =
      .ok (some ⟨none, [], [], []⟩) ∧
    load_csv_from_cache [] "k" = .ok none ∧
    load_csv_from_cache (save_csv_to_cache [] ⟨none, [], [], []⟩ "k") "k" =
      .ok (some ⟨none, [], [], []⟩) ∧
    load_csv_from_cache [("k", Blob.csvText ⟨none, [], [], []⟩),
        ("k_metadata", Blob.meta 99)] "k" =
      load_csv_from_cache [("k", Blob.csvText ⟨none, [], [], []⟩)] "k" :=
  ⟨(load_csv_semantics _ "k").1 ⟨none, [], [], []⟩ rfl,
   (load_csv_semantics [] "k").2.1 rfl,
   (load_csv_semantics [] "k").2.2.1 ⟨none, [], [], []⟩,
   (load_csv_semantics _ "k").2.2.2 _ rfl⟩

theorem load_from_cache_no_data (st : CacheStore) (k : String) (maxAge : Int) (now : Rat)
    (h : lookupStore st k = none) : load_from_cache st k maxAge now = .ok none := by
  unfold load_from_cache
  rw [h]

theorem exists_four_of_le_length (r : List String) (h : 4 ≤ r.length) :
    ∃ a b c d rest, r = a :: b :: c :: d :: rest := by
  cases r with
  | nil => simp at h
  | cons a t1 =>
    cases t1 with
    | nil => simp at h
    | cons b t2 =>
      cases t2 with
      | nil => simp at h
      | cons c t3 =>
        cases t3 with
        | nil => simp at h
        | cons d t4 => exact ⟨a, b, c, d, t4, rfl⟩

theorem eq_pair_of_length_two (r : List String) (h : r.length = 2) :
    ∃ x y, r = [x, y] := by
  cases r with
  | nil => simp at h
  | cons x t1 =>
    cases t1 with
    | nil => simp at h
    | cons y t2 =>
      cases t2 with
      | nil => exact ⟨x, y, rfl⟩
      | cons z t3 =>
        simp only [List.length_cons] at h
        omega

/-- C6: for a fetched constituents document whose data rows have cell
counts at least 4, exactly 2, and at least 4, the reference loader (on a
cache miss) emits exactly 2 records: each data row with at least 4 cells
contributes its first four cells (stripped) as symbol, company, sector and
industry, the 2-cell row is silently skipped, and the output order follows
the document order. -/
theorem sp500_loader_row_filtering (st : CacheStore) (now : Rat)
    (hdr r0 r1 r2 : List String)
    (hmiss : lookupStore st "sp500_cache.pkl" = none)
    (h0 : 4 ≤ r0.length) (h1 : r1.length = 2) (h2 : 4 ≤ r2.length) :
    load_or_download_sp500_tickers [hdr, r0, r1, r2] st now =
      .ok (Payload.df (sp500DataFrame [hdr, r0, r1, r2]),
        save_to_cache st (Payload.df (sp500DataFrame [hdr, r0, r1, r2]))
          "sp500_cache.pkl" now) ∧
    sp500TableRecords [hdr, r0, r1, r2] =
      [(r0.take 4).map (fun s => Val.str s.trim),
       (r2.take 4).map (fun s => Val.str s.trim)] := by
  constructor
  · unfold load_or_download_sp500_tickers
    rw [load_from_cache_no_data st "sp500_cache.pkl" 1 now hmiss]
  · obtain ⟨a0, b0, c0, d0, e0, hr0⟩ := exists_four_of_le_length r0 h0
    obtain ⟨x1, y1, hr1⟩ := eq_pair_of_length_two r1 h1
    obtain ⟨a2, b2, c2, d2, e2, hr2⟩ := exists_four_of_le_length r2 h2
    subst hr0
    subst hr1
    subst hr2
    rfl

/-- Witness for C6 at a concrete document with rows of 4, 2 and 4 cells. -/
theorem sp500_loader_row_filtering_witness :
    load_or_download_sp500_tickers
        [["Symbol", "Security", "Sector", "Industry"],
         ["MMM", "3M", "Industrials", "Conglomerates"],
         ["BAD", "row"],
         ["AOS", "Smith", "Industrials", "Building"]] [] 0 =
      .ok (Payload.df (sp500DataFrame
          [["Symbol", "Security", "Sector", "Industry"],
           ["MMM", "3M", "Industrials", "Conglomerates"],
           ["BAD", "row"],
           ["AOS", "Smith", "Industrials", "Building"]]),
        save_to_cache [] (Payload.df (sp500DataFrame
          [["Symbol", "Security", "Sector", "Industry"],
           ["MMM", "3M", "Industrials", "Conglomerates"],
           ["BAD", "row"],
           ["AOS", "Smith", "Industrials", "Building"]])) "sp500_cache.pkl" 0) ∧
    sp500TableRecords
        [["Symbol", "Security", "Sector", "Industry"],
         ["MMM", "3M", "Industrials", "Conglomerates"],
         ["BAD", "row"],
         ["AOS", "Smith", "Industrials", "Building"]] =
      [(["MMM", "3M", "Industrials", "Conglomerates"].take 4).map (fun s => Val.str s.trim),
       (["AOS", "Smith", "Industrials", "Building"].take 4).map (fun s => Val.str s.trim)] :=
  sp500_loader_row_filtering [] 0
    ["Symbol", "Security", "Sector", "Industry"]
    ["MMM", "3M", "Industrials", "Conglomerates"]
    ["BAD", "row"]
    ["AOS", "Smith", "Industrials", "Building"]
    rfl (by norm_num) rfl (by norm_num)

theorem Val.vle_refl (x : Val) : x.vle x = true := by
  cases x <;> simp [Val.vle]

theorem Val.vle_total (a b : Val) : a.vle b = true ∨ b.vle a = true := by
  cases a <;> cases b <;> simp [Val.vle] <;> exact le_total _ _

theorem lexLe_total (xs ys : List Val) : lexLe xs ys = true ∨ lexLe ys xs = true := by
  induction xs generalizing ys with
  | nil => left; rfl
  | cons a t ih =>
    cases ys with
    | nil => left; rfl
    | cons b u =>
      by_cases hab : a = b
      · subst hab
        simp only [lexLe, if_pos rfl]
        exact ih u
      · simp only [lexLe, if_neg hab, if_neg (Ne.symm hab)]
        exact Val.vle_total a b

theorem lexLe_single (x y : Val) (h : lexLe [x] [y] = true) : Val.vle x y = true := by
  by_cases hxy : x = y
  · subst hxy
    exact Val.vle_refl x
  · simpa [lexLe, hxy] using h

theorem chain_insertBy {α : Type} (le : α → α → Bool)
    (htot : ∀ a b, le a b = true ∨ le b a = true) (x : α) :
    ∀ l : List α, List.Chain' (fun a b => le a b = true) l →
      List.Chain' (fun a b => le a b = true) (insertBy le x l) := by
  intro l
  induction l with
  | nil =>
    intro _
    simp [insertBy]
  | cons y ys ih =>
    intro h
    obtain ⟨hy, hys⟩ := List.chain'_cons'.mp h
    by_cases hxy : le x y = true
    · show List.Chain' (fun a b => le a b = true)
        (if le x y then x :: y :: ys else y :: insertBy le x ys)
      rw [if_pos hxy]
      exact List.chain'_cons.mpr ⟨hxy, h⟩
    · show List.Chain' (fun a b => le a b = true)
        (if le x y then x :: y :: ys else y :: insertBy le x ys)
      rw [if_neg hxy]
      have hyx : le y x = true := (htot x y).resolve_left hxy
      apply List.chain'_cons'.mpr
      refine ⟨?_, ih hys⟩
      intro b hb
      cases ys with
      | nil =>
        simp [insertBy] at hb
        subst hb
        exact hyx
      | cons z zs =>
        by_cases hxz : le x z = true
        · have : insertBy le x (z :: zs) = x :: z :: zs := by
            show (if le x z then x :: z :: zs else z :: insertBy le x zs) = x :: z :: zs
            rw [if_pos hxz]
          rw [this] at hb
          simp at hb
          subst hb
          exact hyx
        · have : insertBy le x (z :: zs) = z :: insertBy le x zs := by
            show (if le x z then x :: z :: zs else z :: insertBy le x zs) = z :: insertBy le x zs
            rw [if_neg hxz]
          rw [this] at hb
          simp at hb
          subst hb
          exact hy z rfl

theorem chain_sortBy {α : Type} (le : α → α → Bool)
    (htot : ∀ a b, le a b = true ∨ le b a = true) :
    ∀ l : List α, List.Chain' (fun a b => le a b = true) (sortBy le l)
  | [] => by simp [sortBy]
  | x :: xs => by
    show List.Chain' _ (insertBy le x (sortBy le xs))
    exact chain_insertBy le htot x _ (chain_sortBy le htot xs)

theorem chain_sortValues (df : DataFrame) (keys : List String) :
    List.Chain' (fun r s =>
      lexLe ((keys.map (colIdx df.cols)).map (fun i => r.getD i Val.na))
            ((keys.map (colIdx df.cols)).map (fun i => s.getD i Val.na)) = true)
      (df.sortValues keys true).rows := by
  have hchain := chain_sortBy (fun a b : Val × List Val =>
      lexLe ((keys.map (colIdx df.cols)).map (fun i => a.2.getD i Val.na))
            ((keys.map (colIdx df.cols)).map (fun i => b.2.getD i Val.na)))
    (fun a b => lexLe_total _ _) (df.idx.zip df.rows)
  show List.Chain' _ ((sortBy (fun a b : Val × List Val =>
      lexLe ((keys.map (colIdx df.cols)).map (fun i => a.2.getD i Val.na))
            ((keys.map (colIdx df.cols)).map (fun i => b.2.getD i Val.na)))
      (df.idx.zip df.rows)).map (fun p => p.2))
  rw [List.chain'_map]
  exact hchain

theorem colVals_chain_of_sortValues_head (df : DataFrame) (k : String)
    (hk : colIdx df.cols k = 0) :
    List.Chain' (fun a b => Val.vle a b = true)
      ((df.sortValues [k] true).colVals k) := by
  have h := chain_sortValues df [k]
  simp only [List.map, hk] at h
  have hc : (df.sortValues [k] true).cols = df.cols := rfl
  unfold DataFrame.colVals
  rw [hc, hk, List.chain'_map]
  exact h.imp (fun a b hab => lexLe_single _ _ hab)

/-- C4: for every pair of inputs, the merger returns a table whose columns
are exactly percent deviation, symbol, company, 200-week moving average,
close price, sector and industry under the display labels of the code, in
that fixed order, and whose rows are sorted ascending by the
percent-deviation column. -/
theorem merge_output_cols_and_sorted (cp ma : DataFrame) (st : CacheStore) (now : Rat) :
    (merge_stock_data cp ma st now).1.cols =
      ["% Deviation", "Ticker", "Company", "200 Week SMA", "Close", "Sector", "Industry"] ∧
    List.Chain' (fun a b => Val.vle a b = true)
      ((merge_stock_data cp ma st now).1.colVals "% Deviation") := by
  constructor
  · rfl
  · exact colVals_chain_of_sortValues_head _ "% Deviation" rfl

/-- C9: fetch_stock_data loads the constituent reference table at call
time and left-joins it with the price payload even when the price payload
comes from a cache hit: under a hit on both fixed keys, the result equals
the Ticker/Date-sorted left join of the stacked cached Close data with the
reference table R loaded at this call, for every R — so the company,
sector and industry columns always reflect the reference snapshot current
at the call, not a reference captured when the prices were cached. -/
theorem fetch_uses_current_reference (trs : List (List String))
    (dl : List Val → Rat → Payload) (st : CacheStore) (now : Rat)
    (R W : DataFrame)
    (href : load_from_cache st "sp500_cache.pkl" 1 now = .ok (some (Payload.df R)))
    (hprice : load_from_cache st "data_cache.pkl" 1 now = .ok (some (Payload.yf W))) :
    fetch_stock_data trs dl st now =
      .ok ((mergeLeft (stackClose W) R "Ticker").sortValues ["Ticker", "Date"] true, st) := by
  have h1 : load_or_download_sp500_tickers trs st now = .ok (Payload.df R, st) := by
    unfold load_or_download_sp500_tickers
    rw [href]
  have h2 : load_or_download_data dl (R.colVals "Ticker") st now
      (((Int.floor now : Int) : Rat) - 3) = .ok (Payload.yf W, st) := by
    unfold load_or_download_data
    rw [hprice]
  unfold fetch_stock_data
  rw [h1]
  simp only [h2]

/-- Witness for C9 at a concrete double-hit cache state. -/
theorem fetch_uses_current_reference_witness :
    fetch_stock_data [] (fun _ _ => Payload.df ⟨none, [], [], []⟩)
        [("sp500_cache.pkl",
          Blob.pickled (Payload.df ⟨none, [], ["Ticker", "Security", "Sector", "Industry"], []⟩)),
         ("sp500_cache.pkl_metadata", Blob.meta 0),
         ("data_cache.pkl", Blob.pickled (Payload.yf ⟨some "Date", [], [], []⟩)),
         ("data_cache.pkl_metadata", Blob.meta 0)] 0 =
      .ok ((mergeLeft (stackClose ⟨some "Date", [], [], []⟩)
          ⟨none, [], ["Ticker", "Security", "Sector", "Industry"], []⟩
          "Ticker").sortValues ["Ticker", "Date"] true,
        [("sp500_cache.pkl",
          Blob.pickled (Payload.df ⟨none, [], ["Ticker", "Security", "Sector", "Industry"], []⟩)),
         ("sp500_cache.pkl_metadata", Blob.meta 0),
         ("data_cache.pkl", Blob.pickled (Payload.yf ⟨some "Date", [], [], []⟩)),
         ("data_cache.pkl_metadata", Blob.meta 0)]) :=
  fetch_uses_current_reference [] (fun _ _ => Payload.df ⟨none, [], [], []⟩) _ 0
    ⟨none, [], ["Ticker", "Security", "Sector", "Industry"], []⟩
    ⟨some "Date", [], [], []⟩
    (load_from_cache_hit _ "sp500_cache.pkl" 1 0 0 _ rfl rfl (by norm_num))
    (load_from_cache_hit _ "data_cache.pkl" 1 0 0 _ rfl rfl (by norm_num))

theorem mem_insertBy {α : Type} (le : α → α → Bool) (x a : α) (l : List α) :
    a ∈ insertBy le x l ↔ a = x ∨ a ∈ l := by
  induction l with
  | nil => simp [insertBy]
  | cons y ys ih =>
    show a ∈ (if le x y then x :: y :: ys else y :: insertBy le x ys) ↔ _
    by_cases h : le x y
    · rw [if_pos h]
      simp
    · rw [if_neg h]
      simp [ih]
      tauto

theorem mem_sortBy {α : Type} (le : α → α → Bool) (a : α) (l : List α) :
    a ∈ sortBy le l ↔ a ∈ l := by
  induction l with
  | nil => simp [sortBy]
  | cons x xs ih =>
    show a ∈ insertBy le x (sortBy le xs) ↔ _
    rw [mem_insertBy]
    simp [ih]

theorem map_snd_zip_of_len (l1 : List Val) (l2 : List (List Val))
    (h : l1.length = l2.length) : (l1.zip l2).map (fun p => p.2) = l2 := by
  induction l1 generalizing l2 with
  | nil =>
    cases l2 with
    | nil => rfl
    | cons y ys => simp at h
  | cons x xs ih =>
    cases l2 with
    | nil => simp at h
    | cons y ys =>
      simp only [List.zip_cons_cons, List.map_cons]
      rw [ih ys (by simpa using h)]

theorem sortValues_idx_len (df : DataFrame) (ks : List String) (b : Bool) :
    (df.sortValues ks b).idx.length = (df.sortValues ks b).rows.length := by
  simp [DataFrame.sortValues]

theorem mem_rows_sortValues (df : DataFrame) (ks : List String) (b : Bool)
    (hlen : df.idx.length = df.rows.length) (x : List Val) :
    x ∈ (df.sortValues ks b).rows ↔ x ∈ df.rows := by
  show x ∈ (sortBy _ (df.idx.zip df.rows)).map (fun p => p.2) ↔ _
  rw [List.mem_map]
  constructor
  · rintro ⟨⟨p1, p2⟩, hp, rfl⟩
    exact (List.of_mem_zip ((mem_sortBy _ _ _).mp hp)).2
  · intro hx
    have hsnd := map_snd_zip_of_len df.idx df.rows hlen
    rw [← hsnd] at hx
    obtain ⟨p, hp, he⟩ := List.mem_map.mp hx
    exact ⟨p, (mem_sortBy _ _ _).mpr hp, he⟩

theorem mem_innerRows (li ri : Nat) (R : List (List Val)) (L : List (List Val)) (x : List Val) :
    x ∈ innerRows li ri R L ↔
      ∃ lr ∈ L, ∃ rr ∈ R, (rr.getD ri Val.na == lr.getD li Val.na) = true ∧
        x = lr ++ rr.eraseIdx ri := by
  induction L with
  | nil => simp [innerRows]
  | cons lr ls ih =>
    show x ∈ ((R.filter _).map _) ++ innerRows li ri R ls ↔ _
    rw [List.mem_append, ih]
    simp only [List.mem_map, List.mem_filter, List.mem_cons]
    constructor
    · rintro (⟨rr, ⟨hrr, hkey⟩, he⟩ | ⟨lr2, hlr2, rest⟩)
      · exact ⟨lr, Or.inl rfl, rr, hrr, hkey, he.symm⟩
      · exact ⟨lr2, Or.inr hlr2, rest⟩
    · rintro ⟨lr2, hlr2 | hlr2, rr, hrr, hkey, he⟩
      · subst hlr2
        exact Or.inl ⟨rr, ⟨hrr, hkey⟩, he.symm⟩
      · exact Or.inr ⟨lr2, hlr2, rr, hrr, hkey, he⟩

theorem zipCons_mem_elim : ∀ (is : List Val) (rs : List (List Val)) (x : List Val),
    x ∈ zipCons is rs → ∃ i r, x = i :: r ∧ i ∈ is ∧ r ∈ rs
  | [], rs, x, h => by simp [zipCons] at h
  | _ :: _, [], x, h => by simp [zipCons] at h
  | i :: it, r :: rt, x, h => by
    rw [show zipCons (i :: it) (r :: rt) = (i :: r) :: zipCons it rt from rfl] at h
    rcases List.mem_cons.mp h with h1 | h2
    · exact ⟨i, r, h1, List.mem_cons_self _ _, List.mem_cons_self _ _⟩
    · obtain ⟨i2, r2, he, hi, hr⟩ := zipCons_mem_elim it rt x h2
      exact ⟨i2, r2, he, List.mem_cons_of_mem _ hi, List.mem_cons_of_mem _ hr⟩

theorem zipCons_mem_intro_right : ∀ (is : List Val) (rs : List (List Val)),
    is.length = rs.length → ∀ r ∈ rs, ∃ i, i ∈ is ∧ (i :: r) ∈ zipCons is rs
  | _, [], _, r, hr => by simp at hr
  | [], _ :: _, hlen, _, _ => by simp at hlen
  | i0 :: it, r0 :: rt, hlen, r, hr => by
    rcases List.mem_cons.mp hr with h1 | h2
    · subst h1
      exact ⟨i0, List.mem_cons_self _ _, List.mem_cons_self _ _⟩
    · obtain ⟨i, hi, hm⟩ := zipCons_mem_intro_right it rt (by simpa using hlen) r h2
      exact ⟨i, List.mem_cons_of_mem _ hi, List.mem_cons_of_mem _ hm⟩

theorem zipCons_mem_intro_left : ∀ (is : List Val) (rs : List (List Val)),
    is.length = rs.length → ∀ i ∈ is, ∃ r, r ∈ rs ∧ (i :: r) ∈ zipCons is rs
  | [], _, _, i, hi => by simp at hi
  | _ :: _, [], hlen, _, _ => by simp at hlen
  | i0 :: it, r0 :: rt, hlen, i, hi => by
    rcases List.mem_cons.mp hi with h1 | h2
    · subst h1
      exact ⟨r0, List.mem_cons_self _ _, List.mem_cons_self _ _⟩
    · obtain ⟨r, hr, hm⟩ := zipCons_mem_intro_left it rt (by simpa using hlen) i h2
      exact ⟨r, List.mem_cons_of_mem _ hr, List.mem_cons_of_mem _ hm⟩

theorem exists_six_of_length (r : List Val) (h : r.length = 6) :
    ∃ a b c d e f, r = [a, b, c, d, e, f] := by
  cases r with
  | nil => simp at h
  | cons a t1 =>
    cases t1 with
    | nil => simp at h
    | cons b t2 =>
      cases t2 with
      | nil => simp at h
      | cons c t3 =>
        cases t3 with
        | nil => simp at h
        | cons d t4 =>
          cases t4 with
          | nil => simp at h
          | cons e t5 =>
            cases t5 with
            | nil => simp at h
            | cons f t6 =>
              cases t6 with
              | nil => exact ⟨a, b, c, d, e, f, rfl⟩
              | cons g t7 =>
                simp only [List.length_cons] at h
                omega

theorem rangeVals_length (n : Nat) : (rangeVals n).length = n := by
  unfold rangeVals
  rw [List.length_map, List.length_range]

theorem merged4_ticker_char (cp ma : DataFrame)
    (hcpIdxName : cp.idxName = none)
    (hcpCols : cp.cols = ["Date", "Ticker", "Close", "Security", "Sector", "Industry"])
    (hcpLen : cp.idx.length = cp.rows.length)
    (hcpRows : ∀ r ∈ cp.rows, r.length = 6)
    (hmaIdxName : ma.idxName = some "Ticker")
    (hmaLen : ma.idx.length = ma.rows.length)
    (v : Val) :
    (∃ row ∈ ((((mergeInner cp.resetIndex
        ((ma.resetIndex).selectCols ["Ticker", "200wk_sma", "% Deviation"])
        "Ticker").dropCols ["index", "Date"]).renameCols
        [("200wk_sma", "200 Week SMA"), ("Security", "Company")]).selectCols
        ["% Deviation", "Ticker", "Company", "200 Week SMA", "Close", "Sector", "Industry"]).rows,
      row.getD 1 Val.na = v) ↔
      ((∃ r ∈ cp.rows, r.getD 1 Val.na = v) ∧ v ∈ ma.idx) := by
  have hcpr : cp.resetIndex.cols =
      ["index", "Date", "Ticker", "Close", "Security", "Sector", "Industry"] := by
    show (cp.idxName.getD "index") :: cp.cols = _
    rw [hcpIdxName, hcpCols]
    rfl
  have hcprows : cp.resetIndex.rows = zipCons cp.idx cp.rows := rfl
  have hmar : ma.resetIndex.cols = "Ticker" :: ma.cols := by
    show (ma.idxName.getD "index") :: ma.cols = _
    rw [hmaIdxName]
    rfl
  have hsel : ((ma.resetIndex).selectCols ["Ticker", "200wk_sma", "% Deviation"]).rows =
      (zipCons ma.idx ma.rows).map (fun r =>
        ["Ticker", "200wk_sma", "% Deviation"].map (fun c =>
          r.getD (colIdx (ma.resetIndex).cols c) Val.na)) := rfl
  have hti : colIdx (ma.resetIndex).cols "Ticker" = 0 := by
    rw [hmar]
    show (if "Ticker" = "Ticker" then 0 else colIdx ma.cols "Ticker" + 1) = 0
    rw [if_pos rfl]
  have hli : colIdx cp.resetIndex.cols "Ticker" = 2 := by
    rw [hcpr]
    rfl
  have hm1rows : (mergeInner cp.resetIndex
      ((ma.resetIndex).selectCols ["Ticker", "200wk_sma", "% Deviation"]) "Ticker").rows =
      innerRows 2 0
        (((ma.resetIndex).selectCols ["Ticker", "200wk_sma", "% Deviation"]).rows)
        (zipCons cp.idx cp.rows) := by
    show innerRows (colIdx cp.resetIndex.cols "Ticker")
        (colIdx ["Ticker", "200wk_sma", "% Deviation"] "Ticker")
        (((ma.resetIndex).selectCols ["Ticker", "200wk_sma", "% Deviation"]).rows)
        cp.resetIndex.rows = _
    rw [hli, hcprows]
    rfl
  have hm1cols : (mergeInner cp.resetIndex
      ((ma.resetIndex).selectCols ["Ticker", "200wk_sma", "% Deviation"]) "Ticker").cols =
      ["index", "Date", "Ticker", "Close", "Security", "Sector", "Industry",
       "200wk_sma", "% Deviation"] := by
    show cp.resetIndex.cols ++ (["Ticker", "200wk_sma", "% Deviation"].eraseIdx
        (colIdx ["Ticker", "200wk_sma", "% Deviation"] "Ticker")) = _
    rw [hcpr]
    rfl
  have hm2rows : ((mergeInner cp.resetIndex
      ((ma.resetIndex).selectCols ["Ticker", "200wk_sma", "% Deviation"])
      "Ticker").dropCols ["index", "Date"]).rows =
      (mergeInner cp.resetIndex
        ((ma.resetIndex).selectCols ["Ticker", "200wk_sma", "% Deviation"])
        "Ticker").rows.map (fun r =>
        ((["index", "Date", "Ticker", "Close", "Security", "Sector", "Industry",
           "200wk_sma", "% Deviation"].zip r).filter
          (fun p => !(["index", "Date"].contains p.1))).map (fun p => p.2)) := by
    show (mergeInner cp.resetIndex
        ((ma.resetIndex).selectCols ["Ticker", "200wk_sma", "% Deviation"])
        "Ticker").rows.map (fun r =>
        (((mergeInner cp.resetIndex
          ((ma.resetIndex).selectCols ["Ticker", "200wk_sma", "% Deviation"])
          "Ticker").cols.zip r).filter
          (fun p => !(["index", "Date"].contains p.1))).map (fun p => p.2)) = _
    rw [hm1cols]
  have hm2cols : ((mergeInner cp.resetIndex
      ((ma.resetIndex).selectCols ["Ticker", "200wk_sma", "% Deviation"])
      "Ticker").dropCols ["index", "Date"]).cols =
      ["Ticker", "Close", "Security", "Sector", "Industry", "200wk_sma", "% Deviation"] := by
    show (mergeInner cp.resetIndex
        ((ma.resetIndex).selectCols ["Ticker", "200wk_sma", "% Deviation"])
        "Ticker").cols.filter (fun c => !(["index", "Date"].contains c)) = _
    rw [hm1cols]
    rfl
  have hm3cols : (((mergeInner cp.resetIndex
      ((ma.resetIndex).selectCols ["Ticker", "200wk_sma", "% Deviation"])
      "Ticker").dropCols ["index", "Date"]).renameCols
      [("200wk_sma", "200 Week SMA"), ("Security", "Company")]).cols =
      ["Ticker", "Close", "Company", "Sector", "Industry", "200 Week SMA", "% Deviation"] := by
    simp only [DataFrame.renameCols]
    rw [hm2cols]
    rfl
  have hm4rows : ((((mergeInner cp.resetIndex
      ((ma.resetIndex).selectCols ["Ticker", "200wk_sma", "% Deviation"])
      "Ticker").dropCols ["index", "Date"]).renameCols
      [("200wk_sma", "200 Week SMA"), ("Security", "Company")]).selectCols
      ["% Deviation", "Ticker", "Company", "200 Week SMA", "Close", "Sector", "Industry"]).rows =
      (((mergeInner cp.resetIndex
        ((ma.resetIndex).selectCols ["Ticker", "200wk_sma", "% Deviation"])
        "Ticker").dropCols ["index", "Date"]).renameCols
        [("200wk_sma", "200 Week SMA"), ("Security", "Company")]).rows.map (fun r =>
        ["% Deviation", "Ticker", "Company", "200 Week SMA", "Close", "Sector",
         "Industry"].map (fun c =>
          r.getD (colIdx ["Ticker", "Close", "Company", "Sector", "Industry",
            "200 Week SMA", "% Deviation"] c) Val.na)) := by
    show (((mergeInner cp.resetIndex
        ((ma.resetIndex).selectCols ["Ticker", "200wk_sma", "% Deviation"])
        "Ticker").dropCols ["index", "Date"]).renameCols
        [("200wk_sma", "200 Week SMA"), ("Security", "Company")]).rows.map (fun r =>
        ["% Deviation", "Ticker", "Company", "200 Week SMA", "Close", "Sector",
         "Industry"].map (fun c =>
          r.getD (colIdx (((mergeInner cp.resetIndex
            ((ma.resetIndex).selectCols ["Ticker", "200wk_sma", "% Deviation"])
            "Ticker").dropCols ["index", "Date"]).renameCols
            [("200wk_sma", "200 Week SMA"), ("Security", "Company")]).cols c) Val.na)) = _
    rw [hm3cols]
  have hm3rows : ((((mergeInner cp.resetIndex
      ((ma.resetIndex).selectCols ["Ticker", "200wk_sma", "% Deviation"])
      "Ticker").dropCols ["index", "Date"]).renameCols
      [("200wk_sma", "200 Week SMA"), ("Security", "Company")]).rows) =
      (((mergeInner cp.resetIndex
        ((ma.resetIndex).selectCols ["Ticker", "200wk_sma", "% Deviation"])
        "Ticker").dropCols ["index", "Date"]).rows) := rfl
  have hget1 : ∀ r : List Val,
      (["% Deviation", "Ticker", "Company", "200 Week SMA", "Close", "Sector",
        "Industry"].map (fun c =>
          r.getD (colIdx ["Ticker", "Close", "Company", "Sector", "Industry",
            "200 Week SMA", "% Deviation"] c) Val.na)).getD 1 Val.na =
        r.getD 0 Val.na := fun r => rfl
  rw [hm4rows, hm3rows, hm2rows, hm1rows, hsel]
  simp only [List.mem_map, exists_exists_and_eq_and, mem_innerRows, hget1]
  have hkey0 : ∀ p : List Val,
      ((["Ticker", "200wk_sma", "% Deviation"].map (fun c =>
        p.getD (colIdx ma.resetIndex.cols c) Val.na)).getD 0 Val.na) =
        p.getD 0 Val.na := by
    intro p
    show p.getD (colIdx ma.resetIndex.cols "Ticker") Val.na = _
    rw [hti]
  simp only [hkey0]
  constructor
  · rintro ⟨a, ⟨lr, hlr, p, hp, hkey, rfl⟩, hval⟩
    obtain ⟨i, r, rfl, hi, hr⟩ := zipCons_mem_elim _ _ _ hlr
    obtain ⟨j, pr, rfl, hj, hpr⟩ := zipCons_mem_elim _ _ _ hp
    obtain ⟨a1, b1, c1, d1, e1, f1, rfl⟩ := exists_six_of_length r (hcpRows r hr)
    have hjb : j = b1 := eq_of_beq hkey
    have hbv : b1 = v := hval
    constructor
    · exact ⟨[a1, b1, c1, d1, e1, f1], hr, hbv⟩
    · rw [← hbv, ← hjb]
      exact hj
  · rintro ⟨⟨r, hr, hv⟩, hvma⟩
    obtain ⟨a1, b1, c1, d1, e1, f1, rfl⟩ := exists_six_of_length r (hcpRows r hr)
    have hbv : b1 = v := hv
    subst hbv
    obtain ⟨i, hi, hlr⟩ := zipCons_mem_intro_right cp.idx cp.rows hcpLen _ hr
    obtain ⟨pr, hpr, hp⟩ := zipCons_mem_intro_left ma.idx ma.rows hmaLen _ hvma
    refine ⟨(i :: [a1, b1, c1, d1, e1, f1]) ++
        ((["Ticker", "200wk_sma", "% Deviation"].map (fun c =>
          (b1 :: pr).getD (colIdx ma.resetIndex.cols c) Val.na)).eraseIdx 0),
      ⟨i :: [a1, b1, c1, d1, e1, f1], hlr, b1 :: pr, hp, ?_, rfl⟩, ?_⟩
    · exact beq_self_eq_true b1
    · rfl

/-- C3: the merger inner-joins on symbol: a symbol appears in the merger
output exactly when it appears in both the prices input and the averages
input, so every row whose symbol is present in only one input is dropped;
in particular prices for symbols A, B, C joined with averages for B, C, D
yield exactly the symbols B and C. -/
theorem merge_inner_join_membership (cp ma : DataFrame) (st : CacheStore) (now : Rat)
    (hcpIdxName : cp.idxName = none)
    (hcpCols : cp.cols = ["Date", "Ticker", "Close", "Security", "Sector", "Industry"])
    (hcpLen : cp.idx.length = cp.rows.length)
    (hcpRows : ∀ r ∈ cp.rows, r.length = 6)
    (hmaIdxName : ma.idxName = some "Ticker")
    (hmaLen : ma.idx.length = ma.rows.length)
    (v : Val) :
    v ∈ (merge_stock_data cp ma st now).1.colVals "Ticker" ↔
      (v ∈ cp.colVals "Ticker" ∧ v ∈ ma.idx) := by
  have h1 : (merge_stock_data cp ma st now).1.colVals "Ticker" =
      ((merge_stock_data cp ma st now).1.rows).map (fun r => r.getD 1 Val.na) := rfl
  have hlen4 : ((((mergeInner cp.resetIndex
      ((ma.resetIndex).selectCols ["Ticker", "200wk_sma", "% Deviation"])
      "Ticker").dropCols ["index", "Date"]).renameCols
      [("200wk_sma", "200 Week SMA"), ("Security", "Company")]).selectCols
      ["% Deviation", "Ticker", "Company", "200 Week SMA", "Close", "Sector",
       "Industry"]).idx.length =
      ((((mergeInner cp.resetIndex
      ((ma.resetIndex).selectCols ["Ticker", "200wk_sma", "% Deviation"])
      "Ticker").dropCols ["index", "Date"]).renameCols
      [("200wk_sma", "200 Week SMA"), ("Security", "Company")]).selectCols
      ["% Deviation", "Ticker", "Company", "200 Week SMA", "Close", "Sector",
       "Industry"]).rows.length := by
    simp only [DataFrame.selectCols, DataFrame.renameCols, DataFrame.dropCols, mergeInner,
      rangeVals_length, List.length_map]
  have hlen5 := sortValues_idx_len ((((mergeInner cp.resetIndex
      ((ma.resetIndex).selectCols ["Ticker", "200wk_sma", "% Deviation"])
      "Ticker").dropCols ["index", "Date"]).renameCols
      [("200wk_sma", "200 Week SMA"), ("Security", "Company")]).selectCols
      ["% Deviation", "Ticker", "Company", "200 Week SMA", "Close", "Sector",
       "Industry"]) ["% Deviation"] true
  have hmem : ∀ x : List Val, x ∈ (merge_stock_data cp ma st now).1.rows ↔
      x ∈ ((((mergeInner cp.resetIndex
        ((ma.resetIndex).selectCols ["Ticker", "200wk_sma", "% Deviation"])
        "Ticker").dropCols ["index", "Date"]).renameCols
        [("200wk_sma", "200 Week SMA"), ("Security", "Company")]).selectCols
        ["% Deviation", "Ticker", "Company", "200 Week SMA", "Close", "Sector",
         "Industry"]).rows := by
    intro x
    show x ∈ ((((((mergeInner cp.resetIndex
        ((ma.resetIndex).selectCols ["Ticker", "200wk_sma", "% Deviation"])
        "Ticker").dropCols ["index", "Date"]).renameCols
        [("200wk_sma", "200 Week SMA"), ("Security", "Company")]).selectCols
        ["% Deviation", "Ticker", "Company", "200 Week SMA", "Close", "Sector",
         "Industry"]).sortValues ["% Deviation"] true).sortValues
        ["% Deviation"] true).rows ↔ _
    rw [mem_rows_sortValues _ _ _ hlen5, mem_rows_sortValues _ _ _ hlen4]
  have hcv : v ∈ cp.colVals "Ticker" ↔ ∃ r ∈ cp.rows, r.getD 1 Val.na = v := by
    unfold DataFrame.colVals
    rw [hcpCols, List.mem_map]
    exact Iff.rfl
  have hiff := merged4_ticker_char cp ma hcpIdxName hcpCols hcpLen hcpRows hmaIdxName
    hmaLen v
  rw [h1, List.mem_map, hcv]
  simp only [hmem]
  exact hiff

/-- Witness for C3 at the concrete scenario of the claim: prices for the
symbols A, B, C and averages for the symbols B, C, D, checked at symbol B. -/
theorem merge_inner_join_membership_witness :
    Val.str "B" ∈ (merge_stock_data
      ⟨none, [Val.num 0, Val.num 1, Val.num 2],
        ["Date", "Ticker", "Close", "Security", "Sector", "Industry"],
        [[Val.num 0, Val.str "A", Val.num 10, Val.str "CoA", Val.str "S", Val.str "I"],
         [Val.num 0, Val.str "B", Val.num 11, Val.str "CoB", Val.str "S", Val.str "I"],
         [Val.num 0, Val.str "C", Val.num 12, Val.str "CoC", Val.str "S", Val.str "I"]]⟩
      ⟨some "Ticker", [Val.str "B", Val.str "C", Val.str "D"],
        ["200wk_sma", "% Deviation"],
        [[Val.num 1, Val.num 2], [Val.num 3, Val.num 4], [Val.num 5, Val.num 6]]⟩
      [] 0).1.colVals "Ticker" ↔
      (Val.str "B" ∈ DataFrame.colVals
        ⟨none, [Val.num 0, Val.num 1, Val.num 2],
          ["Date", "Ticker", "Close", "Security", "Sector", "Industry"],
          [[Val.num 0, Val.str "A", Val.num 10, Val.str "CoA", Val.str "S", Val.str "I"],
           [Val.num 0, Val.str "B", Val.num 11, Val.str "CoB", Val.str "S", Val.str "I"],
           [Val.num 0, Val.str "C", Val.num 12, Val.str "CoC", Val.str "S", Val.str "I"]]⟩
        "Ticker" ∧
       Val.str "B" ∈ [Val.str "B", Val.str "C", Val.str "D"]) :=
  merge_inner_join_membership
    ⟨none, [Val.num 0, Val.num 1, Val.num 2],
      ["Date", "Ticker", "Close", "Security", "Sector", "Industry"],
      [[Val.num 0, Val.str "A", Val.num 10, Val.str "CoA", Val.str "S", Val.str "I"],
       [Val.num 0, Val.str "B", Val.num 11, Val.str "CoB", Val.str "S", Val.str "I"],
       [Val.num 0, Val.str "C", Val.num 12, Val.str "CoC", Val.str "S", Val.str "I"]]⟩
    ⟨some "Ticker", [Val.str "B", Val.str "C", Val.str "D"],
      ["200wk_sma", "% Deviation"],
      [[Val.num 1, Val.num 2], [Val.num 3, Val.num 4], [Val.num 5, Val.num 6]]⟩
    [] 0 rfl rfl rfl (by decide) rfl rfl (Val.str "B")
